import Mathlib

/-!
Shallow embedding of the hydro-sense animation / hardware-coordination core
(`app/pump_automation.py`, `app/relay.py`, `app/gradient.py`,
`app/lighting_math.py`, `app/water_level.py`, `app/state.py`, `app/led.py`)
together with theorems settling the frozen specification claims.

Conventions of the embedding:
* wall-clock instants and float quantities are modelled as exact rationals `ℚ`;
* Python `int(x)` (truncation toward zero) is `pyInt`;
* Python float `%` (result has the sign of the divisor) is `pyMod`;
* fallible code returns `Except`;
* the stateful loops are modelled as pure step functions over explicit state
  records, one step per loop tick.
-/

namespace HydroSense

/-- Python `int(x)`: truncation toward zero. -/
def pyInt (q : ℚ) : ℤ := if 0 ≤ q then ⌊q⌋ else ⌈q⌉

/-- Python float modulo: `a % b = a - b*floor(a/b)`, sign of the divisor. -/
def pyMod (a b : ℚ) : ℚ := a - b * ⌊a / b⌋

/-- Clamp an integer channel value into `[0, 255]` (gradient.py lines 121-123). -/
def clamp255 (x : ℤ) : ℤ := max 0 (min 255 x)

/-- Clamp a rational into `[0, 1]` (used by `led.py` for s, v, brightness). -/
def clamp01 (x : ℚ) : ℚ := max 0 (min 1 x)

theorem pyInt_intCast (n : ℤ) : pyInt (n : ℚ) = n := by
  unfold pyInt
  split <;> simp

theorem pyInt_nonneg_eq_floor {q : ℚ} (h : 0 ≤ q) : pyInt q = ⌊q⌋ := by
  simp [pyInt, h]

theorem pyMod_nonneg {b : ℚ} (hb : 0 < b) (a : ℚ) : 0 ≤ pyMod a b := by
  have h := Int.fract_nonneg (a / b)
  have hfr : pyMod a b = b * Int.fract (a / b) := by
    unfold pyMod Int.fract
    field_simp
  rw [hfr]
  positivity

theorem pyMod_lt {b : ℚ} (hb : 0 < b) (a : ℚ) : pyMod a b < b := by
  have h := Int.fract_lt_one (a / b)
  have hfr : pyMod a b = b * Int.fract (a / b) := by
    unfold pyMod Int.fract
    field_simp
  rw [hfr]
  calc b * Int.fract (a / b) < b * 1 := by
        exact (mul_lt_mul_left hb).mpr h
    _ = b := mul_one b

/-! ## Relay model (`app/relay.py`) -/

/-- `RelayState` enumeration (relay.py lines 30-33). -/
inductive RelayState
  | ON
  | OFF
deriving DecidableEq, Repr

/-- The per-relay configuration fields relevant to timer behaviour
(relay.py `RelayConfig`): `max_on_time` in seconds, `0` = unlimited. -/
structure RelayCfg where
  max_on_time : ℚ
deriving DecidableEq, Repr

/-- Runtime state of one relay: logical state and the pending auto-shutoff
deadline (`shutoff_time`, `None` when no timer is pending). -/
structure RelayRt where
  state : RelayState
  shutoff_time : Option ℚ
deriving DecidableEq, Repr

/-- `Relay._cancel_shutoff_timer` (relay.py lines 103-108). -/
def cancel_shutoff_timer (s : RelayRt) : RelayRt :=
  { s with shutoff_time := none }

/-- `Relay._start_shutoff_timer` (relay.py lines 110-145): no-op when
`max_on_time ≤ 0`, otherwise replaces any pending deadline with
`now + max_on_time`. -/
def start_shutoff_timer (cfg : RelayCfg) (now : ℚ) (s : RelayRt) : RelayRt :=
  if cfg.max_on_time ≤ 0 then s
  else { s with shutoff_time := some (now + cfg.max_on_time) }

/-- `Relay.turn_on` (relay.py lines 168-188). -/
def relay_turn_on (cfg : RelayCfg) (now : ℚ) (s : RelayRt) : RelayRt :=
  if s.state = RelayState.ON then s
  else start_shutoff_timer cfg now { s with state := RelayState.ON }

/-- `Relay.turn_off` (relay.py lines 190-209): cancels the timer, then sets
the state OFF. -/
def relay_turn_off (s : RelayRt) : RelayRt :=
  if s.state = RelayState.OFF then s
  else { (cancel_shutoff_timer s) with state := RelayState.OFF }

/-- `Relay.set_state` (relay.py lines 211-224). -/
def relay_set_state (cfg : RelayCfg) (now : ℚ) (st : RelayState) (s : RelayRt) : RelayRt :=
  if st = RelayState.ON then relay_turn_on cfg now s else relay_turn_off s

/-- `Relay.toggle` (relay.py lines 226-238): flips the logical state and
writes the pin; it does not touch the shutoff timer. -/
def relay_toggle (s : RelayRt) : RelayRt :=
  { s with state := if s.state = RelayState.ON then RelayState.OFF else RelayState.ON }

/-- `Relay._auto_shutoff` (relay.py lines 147-153): the timer callback simply
calls `turn_off`. -/
def relay_auto_shutoff (s : RelayRt) : RelayRt := relay_turn_off s

/-- The watchdog force-off branch of `RelayManager._watchdog_loop`
(relay.py lines 493-505): when `max_on_time > 0`, the relay is ON and the
remaining time `max(0, deadline - now)` is `≤ 0`, cancel the timer and force
the state OFF. -/
def relay_watchdog (cfg : RelayCfg) (now : ℚ) (s : RelayRt) : RelayRt :=
  match s.shutoff_time with
  | some d =>
      if 0 < cfg.max_on_time ∧ s.state = RelayState.ON ∧ max 0 (d - now) ≤ 0 then
        { (cancel_shutoff_timer s) with state := RelayState.OFF }
      else s
  | none => s

/-- The operations that can reach a relay. -/
inductive RelayOp
  | turnOn (now : ℚ)
  | turnOff
  | setSt (st : RelayState) (now : ℚ)
  | toggle
  | autoShutoff
  | watchdog (now : ℚ)
deriving DecidableEq, Repr

def apply_relay_op (cfg : RelayCfg) (s : RelayRt) : RelayOp → RelayRt
  | RelayOp.turnOn now => relay_turn_on cfg now s
  | RelayOp.turnOff => relay_turn_off s
  | RelayOp.setSt st now => relay_set_state cfg now st s
  | RelayOp.toggle => relay_toggle s
  | RelayOp.autoShutoff => relay_auto_shutoff s
  | RelayOp.watchdog now => relay_watchdog cfg now s

def apply_relay_ops (cfg : RelayCfg) (s : RelayRt) (ops : List RelayOp) : RelayRt :=
  ops.foldl (apply_relay_op cfg) s

/-! ## Pump automation model (`app/pump_automation.py`) -/

/-- `AutomationMode` enumeration (pump_automation.py lines 23-27). -/
inductive AutomationMode
  | AUTO
  | MANUAL
  | DISABLED
deriving DecidableEq, Repr

/-- Configuration of `PumpAutomation` (seconds, modelled exactly). -/
structure PumpCfg where
  on_interval : ℚ
  off_interval : ℚ
  max_runtime : ℚ
deriving DecidableEq, Repr

/-- Mutable state of `PumpAutomation` together with the pump relay's logical
state (the only relay the automation touches). -/
structure PumpState where
  mode : AutomationMode
  running_since : Option ℚ
  total_runtime : ℚ
  cycle_count : ℕ
  last_action_time : ℚ
  pump : RelayState
deriving DecidableEq, Repr

/-- `PumpAutomation.set_mode` (pump_automation.py lines 119-138): records the
new mode; only for `DISABLED` it additionally turns the pump relay off and
clears `running_since`. -/
def set_mode (s : PumpState) (m : AutomationMode) : PumpState :=
  let s1 := { s with mode := m }
  if m = AutomationMode.DISABLED then
    { s1 with pump := RelayState.OFF, running_since := none }
  else s1

/-- The duty-cycle part of `PumpAutomation._handle_low_water`
(pump_automation.py lines 210-237), reached when the safety check passed. -/
def duty_cycle (cfg : PumpCfg) (now : ℚ) (s : PumpState) : PumpState :=
  let time_since_action := now - s.last_action_time
  match s.pump with
  | RelayState.OFF =>
      if time_since_action ≥ cfg.off_interval then
        { s with
          pump := RelayState.ON
          last_action_time := now
          cycle_count := s.cycle_count + 1
          running_since :=
            match s.running_since with
            | none => some now
            | some rs => some rs }
      else s
  | RelayState.ON =>
      if time_since_action ≥ cfg.on_interval then
        { s with
          pump := RelayState.OFF
          last_action_time := now
          total_runtime :=
            s.total_runtime +
              (match s.running_since with
               | some _ => time_since_action
               | none => 0) }
      else s

/-- `PumpAutomation._handle_low_water` (pump_automation.py lines 187-237):
safety check first (lines 198-208), then the duty cycle. -/
def handle_low_water (cfg : PumpCfg) (now : ℚ) (s : PumpState) : PumpState :=
  match s.running_since with
  | some rs =>
      if now - rs ≥ cfg.max_runtime then
        { s with
          pump := RelayState.OFF
          mode := AutomationMode.DISABLED
          running_since := none }
      else duty_cycle cfg now s
  | none => duty_cycle cfg now s

/-- C1: the safety branch forces relay OFF, mode DISABLED, clears
`running_since`, and performs no duty-cycle action. -/
theorem handle_low_water_safety (cfg : PumpCfg) (now rs : ℚ) (s : PumpState)
    (hrs : s.running_since = some rs) (hel : now - rs ≥ cfg.max_runtime) :
    handle_low_water cfg now s =
      { s with
        pump := RelayState.OFF
        mode := AutomationMode.DISABLED
        running_since := none } := by
  unfold handle_low_water
  split
  · rename_i rs2 hrs2
    rw [hrs] at hrs2
    cases hrs2
    rw [if_pos hel]
  · rename_i hnone
    rw [hrs] at hnone
    cases hnone

/-- Witness for C1 at a concrete input. -/
theorem handle_low_water_safety_witness :
    handle_low_water ⟨30, 30, 300⟩ 300
      { mode := AutomationMode.AUTO, running_since := some 0, total_runtime := 7,
        cycle_count := 2, last_action_time := 290, pump := RelayState.ON } =
      { mode := AutomationMode.DISABLED, running_since := none, total_runtime := 7,
        cycle_count := 2, last_action_time := 290, pump := RelayState.OFF } :=
  handle_low_water_safety ⟨30, 30, 300⟩ 300 0 _ rfl (by norm_num)

/-- C2 counterexample: in the duty-cycle OFF transition (relay ON,
`now - last_action_time ≥ on_interval`, safety limit not reached) the code
turns the relay OFF and accumulates runtime but does NOT clear
`running_since`. -/
theorem duty_off_keeps_running_since_cex :
    (handle_low_water ⟨30, 30, 300⟩ 40
        { mode := AutomationMode.AUTO, running_since := some 0, total_runtime := 0,
          cycle_count := 1, last_action_time := 0, pump := RelayState.ON }).pump
      = RelayState.OFF ∧
    (handle_low_water ⟨30, 30, 300⟩ 40
        { mode := AutomationMode.AUTO, running_since := some 0, total_runtime := 0,
          cycle_count := 1, last_action_time := 0, pump := RelayState.ON }).running_since
      = some 0 := by
  constructor <;> norm_num [handle_low_water, duty_cycle]

/-- When the safety limit has not been reached, `_handle_low_water` is the
duty cycle. -/
theorem handle_low_water_no_safety (cfg : PumpCfg) (now : ℚ) (s : PumpState)
    (hsafe : ∀ rs, s.running_since = some rs → now - rs < cfg.max_runtime) :
    handle_low_water cfg now s = duty_cycle cfg now s := by
  unfold handle_low_water
  cases hrs : s.running_since with
  | none => rfl
  | some rs =>
      have hlt := hsafe rs hrs
      have hneg : ¬ now - rs ≥ cfg.max_runtime := by linarith
      show (if now - rs ≥ cfg.max_runtime then
          ({ s with
             pump := RelayState.OFF
             mode := AutomationMode.DISABLED
             running_since := none } : PumpState)
        else duty_cycle cfg now s) = duty_cycle cfg now s
      rw [if_neg hneg]

/-- C2 amended: whenever the relay is ON, `now - last_action_time ≥
on_interval` and the safety limit has not been reached, the handler turns the
relay OFF, resets `last_action_time` to `now`, accumulates the elapsed time
into `total_runtime` (when `running_since` is set), and leaves
`running_since` unchanged rather than clearing it. -/
theorem handle_low_water_duty_off (cfg : PumpCfg) (now : ℚ) (s : PumpState)
    (hon : s.pump = RelayState.ON)
    (htsa : now - s.last_action_time ≥ cfg.on_interval)
    (hsafe : ∀ rs, s.running_since = some rs → now - rs < cfg.max_runtime) :
    handle_low_water cfg now s =
      { s with
        pump := RelayState.OFF
        last_action_time := now
        total_runtime :=
          s.total_runtime +
            (if s.running_since.isSome then now - s.last_action_time else 0) } := by
  rw [handle_low_water_no_safety cfg now s hsafe]
  unfold duty_cycle
  split
  · rename_i hoff
    rw [hon] at hoff
    cases hoff
  · rw [if_pos htsa]
    cases hrs : s.running_since with
    | none => simp [hrs]
    | some rs => simp [hrs]

/-- Witness for the amended C2 at a concrete input. -/
theorem handle_low_water_duty_off_witness :
    handle_low_water ⟨30, 30, 300⟩ 40
      { mode := AutomationMode.AUTO, running_since := some 0, total_runtime := 0,
        cycle_count := 1, last_action_time := 0, pump := RelayState.ON } =
      { mode := AutomationMode.AUTO, running_since := some 0, total_runtime := 40,
        cycle_count := 1, last_action_time := 40, pump := RelayState.OFF } := by
  have h := handle_low_water_duty_off ⟨30, 30, 300⟩ 40
    { mode := AutomationMode.AUTO, running_since := some 0, total_runtime := 0,
      cycle_count := 1, last_action_time := 0, pump := RelayState.ON }
    rfl (by norm_num)
    (by
      intro rs hrs
      cases hrs
      norm_num)
  rw [h]
  norm_num

/-- C3: the code at the failing input of the repository's own test
`test_set_mode_turns_off_pump` (pump ON, then `set_mode(MANUAL)`): the relay
stays ON and `running_since` stays set; only the mode changes. The test (and
the spec) require the relay to be forced OFF. -/
theorem set_mode_manual_keeps_pump_on :
    set_mode
        { mode := AutomationMode.AUTO, running_since := some 5, total_runtime := 0,
          cycle_count := 0, last_action_time := 0, pump := RelayState.ON }
        AutomationMode.MANUAL =
      { mode := AutomationMode.MANUAL, running_since := some 5, total_runtime := 0,
        cycle_count := 0, last_action_time := 0, pump := RelayState.ON } := by
  rfl

/-- C4 counterexample: with `max_on_time = 10`, `turn_on` at `t=0` then
`toggle` leaves the relay logically OFF while the auto-shutoff deadline
`t=10` is still pending. -/
theorem toggle_off_leaves_timer_cex :
    apply_relay_ops ⟨10⟩ ⟨RelayState.OFF, none⟩ [RelayOp.turnOn 0, RelayOp.toggle] =
      ⟨RelayState.OFF, some 10⟩ := by
  norm_num [apply_relay_ops, apply_relay_op, relay_turn_on, relay_toggle,
    start_shutoff_timer]
  simp

/-- The C4 invariant: an OFF relay has no pending auto-shutoff deadline. -/
def RelayTimerInv (s : RelayRt) : Prop :=
  s.state = RelayState.OFF → s.shutoff_time = none

theorem relay_turn_on_inv (cfg : RelayCfg) (now : ℚ) (s : RelayRt)
    (h : RelayTimerInv s) : RelayTimerInv (relay_turn_on cfg now s) := by
  unfold relay_turn_on start_shutoff_timer
  by_cases hS : s.state = RelayState.ON
  · rw [if_pos hS]
    exact h
  · rw [if_neg hS]
    by_cases hM : cfg.max_on_time ≤ 0 <;> simp [hM, RelayTimerInv]

theorem relay_turn_off_inv (s : RelayRt) (h : RelayTimerInv s) :
    RelayTimerInv (relay_turn_off s) := by
  unfold relay_turn_off cancel_shutoff_timer
  by_cases hS : s.state = RelayState.OFF
  · rw [if_pos hS]
    exact h
  · rw [if_neg hS]
    intro _
    rfl

theorem relay_set_state_inv (cfg : RelayCfg) (now : ℚ) (st : RelayState) (s : RelayRt)
    (h : RelayTimerInv s) : RelayTimerInv (relay_set_state cfg now st s) := by
  unfold relay_set_state
  by_cases hst : st = RelayState.ON
  · rw [if_pos hst]
    exact relay_turn_on_inv cfg now s h
  · rw [if_neg hst]
    exact relay_turn_off_inv s h

theorem relay_watchdog_inv (cfg : RelayCfg) (now : ℚ) (s : RelayRt)
    (h : RelayTimerInv s) : RelayTimerInv (relay_watchdog cfg now s) := by
  unfold relay_watchdog cancel_shutoff_timer
  split
  · split
    · intro _
      rfl
    · exact h
  · exact h

theorem apply_relay_op_inv (cfg : RelayCfg) (s : RelayRt) (op : RelayOp)
    (hop : op ≠ RelayOp.toggle) (h : RelayTimerInv s) :
    RelayTimerInv (apply_relay_op cfg s op) := by
  cases op with
  | turnOn now => exact relay_turn_on_inv cfg now s h
  | turnOff => exact relay_turn_off_inv s h
  | setSt st now => exact relay_set_state_inv cfg now st s h
  | toggle => exact absurd rfl hop
  | autoShutoff => exact relay_turn_off_inv s h
  | watchdog now => exact relay_watchdog_inv cfg now s h

/-- C4 amended: every path that turns the relay OFF except `toggle` cancels
any pending auto-shutoff timer: starting from a state satisfying the
invariant (e.g. the freshly constructed relay), after any sequence of
operations not containing `toggle`, OFF implies no pending deadline.
(`toggle` flips the state without touching the timer, so toggling OFF can
leave a stale pending timer — the counterexample.) -/
theorem relay_off_no_timer (cfg : RelayCfg) (s0 : RelayRt) (ops : List RelayOp)
    (h0 : RelayTimerInv s0) (hops : ∀ op ∈ ops, op ≠ RelayOp.toggle) :
    RelayTimerInv (apply_relay_ops cfg s0 ops) := by
  induction ops generalizing s0 with
  | nil => exact h0
  | cons op rest ih =>
      have hstep := apply_relay_op_inv cfg s0 op (hops op (by simp)) h0
      exact ih (apply_relay_op cfg s0 op) hstep
        (fun o ho => hops o (by simp [ho]))

/-- Witness for the amended C4 at a concrete operation sequence. -/
theorem relay_off_no_timer_witness :
    RelayTimerInv
      (apply_relay_ops ⟨10⟩ ⟨RelayState.OFF, none⟩
        [RelayOp.turnOn 0, RelayOp.watchdog 11, RelayOp.turnOn 20, RelayOp.turnOff]) :=
  relay_off_no_timer ⟨10⟩ ⟨RelayState.OFF, none⟩
    [RelayOp.turnOn 0, RelayOp.watchdog 11, RelayOp.turnOn 20, RelayOp.turnOff]
    (fun _ => rfl)
    (by
      intro op ho
      simp only [List.mem_cons, List.not_mem_nil, or_false] at ho
      rcases ho with h | h | h | h <;> subst h <;> simp)

/-! ## Gradient rendering (`app/gradient.py`) -/

/-- `ColorStop` (gradient.py lines 25-33): position plus RGB channels. -/
structure ColorStop where
  position : ℚ
  r : ℤ
  g : ℤ
  b : ℤ
deriving DecidableEq, Repr

/-- The pydantic field bounds of `ColorStop`: `position ∈ [0,1]`,
channels in `[0,255]`. -/
def ValidStop (s : ColorStop) : Prop :=
  0 ≤ s.position ∧ s.position ≤ 1 ∧
  0 ≤ s.r ∧ s.r ≤ 255 ∧ 0 ≤ s.g ∧ s.g ≤ 255 ∧ 0 ≤ s.b ∧ s.b ≤ 255

instance : DecidablePred ValidStop := fun s => by
  unfold ValidStop
  infer_instance

/-- The sort key of gradient.py line 85. -/
def stopLe (a b : ColorStop) : Bool := decide (a.position ≤ b.position)

/-- `sorted(stops, key=lambda s: s.position)`: Python `sorted` is a stable
sort, modelled by the stable `List.mergeSort`. -/
def sortStops (stops : List ColorStop) : List ColorStop := stops.mergeSort stopLe

/-- The scan of gradient.py lines 103-107: the first adjacent pair with
`left.position ≤ t ≤ right.position`. -/
def scanPairs (t : ℚ) : List ColorStop → Option (ColorStop × ColorStop)
  | a :: b :: rest =>
      if a.position ≤ t ∧ t ≤ b.position then some (a, b) else scanPairs t (b :: rest)
  | _ => none

def dummyStop : ColorStop := ⟨0, 0, 0, 0⟩

/-- Lines 99-107: `left/right` default to the first/last sorted stop and are
replaced by the first bracketing adjacent pair when one exists. -/
def findStopPair (sorted : List ColorStop) (t : ℚ) : ColorStop × ColorStop :=
  match scanPairs t sorted with
  | some p => p
  | none => (sorted.headD dummyStop, sorted.getLastD dummyStop)

/-- One channel: linear interpolation, Python `int()` truncation, clamp
(gradient.py lines 116-123). -/
def interpChannel (lc rc : ℤ) (factor : ℚ) : ℤ :=
  clamp255 (pyInt ((lc : ℚ) + ((rc : ℚ) - (lc : ℚ)) * factor))

/-- The per-pixel body of the render loop (gradient.py lines 99-125). -/
def renderPixel (sorted : List ColorStop) (t : ℚ) : ℤ × ℤ × ℤ :=
  let pair := findStopPair sorted t
  let ls := pair.1
  let rs := pair.2
  let factor :=
    if rs.position = ls.position then 0
    else (t - ls.position) / (rs.position - ls.position)
  (interpChannel ls.r rs.r factor, interpChannel ls.g rs.g factor,
    interpChannel ls.b rs.b factor)

/-- The pixel position `t` (gradient.py lines 90-97): `0.0` for a single
pixel, otherwise `i/(pixel_count-1) + offset`, wrapped modulo 1 only when
`offset ≠ 0`. -/
def pixelT (pixel_count : ℕ) (offset : ℚ) (i : ℕ) : ℚ :=
  if pixel_count = 1 then 0
  else
    let t := (i : ℚ) / ((pixel_count : ℚ) - 1) + offset
    if offset ≠ 0 then pyMod t 1 else t

/-- `render_gradient` (gradient.py lines 51-127). -/
def render_gradient (stops : List ColorStop) (pixel_count : ℤ) (offset : ℚ) :
    Except String (List (ℤ × ℤ × ℤ)) :=
  if stops.length < 2 then Except.error "At least 2 color stops required"
  else if pixel_count ≤ 0 then Except.ok []
  else
    let sorted := sortStops stops
    Except.ok ((List.range pixel_count.toNat).map
      (fun i => renderPixel sorted (pixelT pixel_count.toNat offset i)))

/-- C5 counterexample: valid stops whose first sorted position is `0.5`; with
`pixelCount = 1` the code extrapolates at `t = 0` (factor `-1`) and clamps,
producing `(255, 0, 0)` instead of the first sorted stop's `(200, 0, 0)`. -/
theorem render_single_pixel_cex :
    sortStops [⟨1/2, 200, 0, 0⟩, ⟨1, 0, 0, 255⟩] = [⟨1/2, 200, 0, 0⟩, ⟨1, 0, 0, 255⟩] ∧
    render_gradient [⟨1/2, 200, 0, 0⟩, ⟨1, 0, 0, 255⟩] 1 0 = Except.ok [(255, 0, 0)] ∧
    ((255 : ℤ), (0 : ℤ), (0 : ℤ)) ≠ ((200 : ℤ), (0 : ℤ), (0 : ℤ)) := by
  have hsorted : sortStops [⟨1/2, 200, 0, 0⟩, ⟨1, 0, 0, 255⟩] =
      [(⟨1/2, 200, 0, 0⟩ : ColorStop), ⟨1, 0, 0, 255⟩] := by
    apply List.mergeSort_of_sorted
    norm_num [stopLe, List.pairwise_cons]
  constructor
  · exact hsorted
  constructor
  · unfold render_gradient
    norm_num
    rw [hsorted]
    norm_num [renderPixel, findStopPair, scanPairs, pixelT, interpChannel,
      clamp255, pyInt]
    exact Int.ceil_le.mpr (by norm_num)
  · decide

theorem sortStops_perm (stops : List ColorStop) : (sortStops stops).Perm stops :=
  List.mergeSort_perm stops stopLe

/-- C5 amended: with `pixelCount = 1` the single pixel is evaluated at
`t = 0` with the offset ignored; it equals the first sorted stop's exact
`(r,g,b)` whenever that stop's position is `0` (as in every gradient that
starts at position 0). When the first sorted position is positive the code
instead extrapolates between the first and last sorted stops at `t = 0` and
clamps — the counterexample. -/
theorem render_single_pixel (stops : List ColorStop) (offset : ℚ)
    (s0 s1 : ColorStop) (rest : List ColorStop)
    (hv : ∀ s ∈ stops, ValidStop s)
    (hsort : sortStops stops = s0 :: s1 :: rest)
    (hpos : s0.position = 0) :
    render_gradient stops 1 offset = Except.ok [(s0.r, s0.g, s0.b)] := by
  have hlen : stops.length = (s0 :: s1 :: rest).length := by
    rw [← hsort]
    exact ((sortStops_perm stops).length_eq).symm
  have hv0 : ValidStop s0 := by
    apply hv
    exact (sortStops_perm stops).mem_iff.mp (by rw [hsort]; simp)
  have hv1 : ValidStop s1 := by
    apply hv
    exact (sortStops_perm stops).mem_iff.mp (by rw [hsort]; simp)
  have hnotlt : ¬ stops.length < 2 := by
    rw [hlen]
    simp
  unfold render_gradient
  rw [if_neg hnotlt, if_neg (by norm_num : ¬ (1 : ℤ) ≤ 0)]
  have hrange : (Int.toNat 1) = 1 := rfl
  rw [hrange]
  have hpix : pixelT 1 offset 0 = 0 := by simp [pixelT]
  have hscan : scanPairs 0 (s0 :: s1 :: rest) = some (s0, s1) := by
    unfold scanPairs
    rw [if_pos ⟨le_of_eq hpos, hv1.1⟩]
  have hrp : renderPixel (sortStops stops) 0 = (s0.r, s0.g, s0.b) := by
    rw [hsort]
    unfold renderPixel findStopPair
    rw [hscan]
    have hfac : (if s1.position = s0.position then (0 : ℚ)
        else ((0 : ℚ) - s0.position) / (s1.position - s0.position)) = 0 := by
      split
      · rfl
      · rw [hpos]
        simp
    simp only [hfac]
    have hch : ∀ lc rc : ℤ, 0 ≤ lc → lc ≤ 255 → interpChannel lc rc 0 = lc := by
      intro lc rc h0 h255
      unfold interpChannel
      rw [mul_zero, add_zero, pyInt_intCast]
      unfold clamp255
      omega
    rw [hch s0.r s1.r hv0.2.2.1 hv0.2.2.2.1,
      hch s0.g s1.g hv0.2.2.2.2.1 hv0.2.2.2.2.2.1,
      hch s0.b s1.b hv0.2.2.2.2.2.2.1 hv0.2.2.2.2.2.2.2]
  show Except.ok ((List.range 1).map
      (fun i => renderPixel (sortStops stops) (pixelT 1 offset i))) = _
  rw [show List.range 1 = [0] from rfl]
  simp only [List.map_cons, List.map_nil, hpix, hrp]

/-- Witness for the amended C5 at a concrete input. -/
theorem render_single_pixel_witness :
    render_gradient [⟨0, 10, 20, 30⟩, ⟨1, 200, 100, 50⟩] 1 (7/3) =
      Except.ok [((10 : ℤ), (20 : ℤ), (30 : ℤ))] := by
  have hsorted : sortStops [⟨0, 10, 20, 30⟩, ⟨1, 200, 100, 50⟩] =
      [(⟨0, 10, 20, 30⟩ : ColorStop), ⟨1, 200, 100, 50⟩] := by
    apply List.mergeSort_of_sorted
    norm_num [stopLe, List.pairwise_cons]
  exact render_single_pixel [⟨0, 10, 20, 30⟩, ⟨1, 200, 100, 50⟩] (7/3)
    ⟨0, 10, 20, 30⟩ ⟨1, 200, 100, 50⟩ []
    (by
      intro s hs
      simp only [List.mem_cons, List.not_mem_nil, or_false] at hs
      rcases hs with h | h <;> subst h <;> norm_num [ValidStop])
    hsorted rfl

/-- C6 counterexample: two stops sharing position `0.5` but with different
colors. Python's stable sort preserves the input order of equal keys, so the
two input orders render differently (here at `pixelCount = 1`). -/
theorem render_perm_cex :
    (([⟨1/2, 255, 0, 0⟩, ⟨1/2, 0, 0, 255⟩] : List ColorStop)).Perm
      [⟨1/2, 0, 0, 255⟩, ⟨1/2, 255, 0, 0⟩] ∧
    render_gradient [⟨1/2, 255, 0, 0⟩, ⟨1/2, 0, 0, 255⟩] 1 0 = Except.ok [(255, 0, 0)] ∧
    render_gradient [⟨1/2, 0, 0, 255⟩, ⟨1/2, 255, 0, 0⟩] 1 0 = Except.ok [(0, 0, 255)] ∧
    Except.ok ([((255 : ℤ), (0 : ℤ), (0 : ℤ))]) ≠
      (Except.ok [((0 : ℤ), (0 : ℤ), (255 : ℤ))] : Except String (List (ℤ × ℤ × ℤ))) := by
  have hs1 : sortStops [⟨1/2, 255, 0, 0⟩, ⟨1/2, 0, 0, 255⟩] =
      [(⟨1/2, 255, 0, 0⟩ : ColorStop), ⟨1/2, 0, 0, 255⟩] := by
    apply List.mergeSort_of_sorted
    norm_num [stopLe, List.pairwise_cons]
  have hs2 : sortStops [⟨1/2, 0, 0, 255⟩, ⟨1/2, 255, 0, 0⟩] =
      [(⟨1/2, 0, 0, 255⟩ : ColorStop), ⟨1/2, 255, 0, 0⟩] := by
    apply List.mergeSort_of_sorted
    norm_num [stopLe, List.pairwise_cons]
  refine ⟨List.Perm.swap _ _ _, ?_, ?_, by simp⟩
  · unfold render_gradient
    norm_num
    rw [hs1]
    norm_num [renderPixel, findStopPair, scanPairs, pixelT, interpChannel,
      clamp255, pyInt]
  · unfold render_gradient
    norm_num
    rw [hs2]
    norm_num [renderPixel, findStopPair, scanPairs, pixelT, interpChannel,
      clamp255, pyInt]

/-- Sorting is permutation-invariant once the stop positions are pairwise
distinct. -/
theorem sortStops_perm_eq (stops stops' : List ColorStop)
    (hperm : stops.Perm stops')
    (hnd : stops.Pairwise (fun a b => a.position ≠ b.position)) :
    sortStops stops = sortStops stops' := by
  have hsymm : ∀ {x y : ColorStop}, x.position ≠ y.position → y.position ≠ x.position :=
    fun h => h.symm
  have hnd1 : (sortStops stops).Pairwise (fun a b => a.position ≠ b.position) :=
    ((sortStops_perm stops).pairwise_iff hsymm).mpr hnd
  have hnd2 : (sortStops stops').Pairwise (fun a b => a.position ≠ b.position) :=
    ((sortStops_perm stops').pairwise_iff hsymm).mpr
      ((hperm.pairwise_iff hsymm).mp hnd)
  have hlax1 : (sortStops stops).Pairwise (fun a b => stopLe a b = true) :=
    List.sorted_mergeSort
      (by
        intro a b c hab hbc
        simp only [stopLe, decide_eq_true_eq] at hab hbc ⊢
        exact le_trans hab hbc)
      (by
        intro a b
        simp only [stopLe, Bool.or_eq_true, decide_eq_true_eq]
        exact le_total a.position b.position)
      stops
  have hlax2 : (sortStops stops').Pairwise (fun a b => stopLe a b = true) :=
    List.sorted_mergeSort
      (by
        intro a b c hab hbc
        simp only [stopLe, decide_eq_true_eq] at hab hbc ⊢
        exact le_trans hab hbc)
      (by
        intro a b
        simp only [stopLe, Bool.or_eq_true, decide_eq_true_eq]
        exact le_total a.position b.position)
      stops'
  have hstrict1 : List.Sorted (fun a b : ColorStop => a.position < b.position)
      (sortStops stops) :=
    (hlax1.and hnd1).imp (fun h => by
      have hle : _ := h.1
      simp only [stopLe, decide_eq_true_eq] at hle
      exact lt_of_le_of_ne hle h.2)
  have hstrict2 : List.Sorted (fun a b : ColorStop => a.position < b.position)
      (sortStops stops') :=
    (hlax2.and hnd2).imp (fun h => by
      have hle : _ := h.1
      simp only [stopLe, decide_eq_true_eq] at hle
      exact lt_of_le_of_ne hle h.2)
  haveI : IsAntisymm ColorStop (fun a b => a.position < b.position) :=
    ⟨fun a b h1 h2 => absurd (h1.trans h2) (lt_irrefl _)⟩
  exact List.eq_of_perm_of_sorted
    ((sortStops_perm stops).trans (hperm.trans (sortStops_perm stops').symm))
    hstrict1 hstrict2

/-- C6 amended: `render_gradient` is invariant under permutations of the
input stops provided the stop positions are pairwise distinct (the
invariant `validate_gradient_config` enforces). With duplicate positions the
stable sort preserves input order among equal keys and the output can
differ — the counterexample. -/
theorem render_gradient_perm (stops stops' : List ColorStop) (pc : ℤ) (offset : ℚ)
    (hperm : stops.Perm stops')
    (hnd : stops.Pairwise (fun a b => a.position ≠ b.position)) :
    render_gradient stops pc offset = render_gradient stops' pc offset := by
  unfold render_gradient
  rw [hperm.length_eq, sortStops_perm_eq stops stops' hperm hnd]

/-- Witness for the amended C6 at a concrete input. -/
theorem render_gradient_perm_witness :
    render_gradient [⟨0, 1, 2, 3⟩, ⟨1, 40, 50, 60⟩] 3 (1/2) =
      render_gradient [⟨1, 40, 50, 60⟩, ⟨0, 1, 2, 3⟩] 3 (1/2) :=
  render_gradient_perm [⟨0, 1, 2, 3⟩, ⟨1, 40, 50, 60⟩]
    [⟨1, 40, 50, 60⟩, ⟨0, 1, 2, 3⟩] 3 (1/2)
    (List.Perm.swap _ _ _)
    (by norm_num [List.pairwise_cons])

/-! ## ColorMath (`app/lighting_math.py`) -/

/-- `smoothstep` (lighting_math.py lines 8-10). -/
def smoothstep (t : ℚ) : ℚ := t * t * (3 - 2 * t)

/-- `lerp` (lighting_math.py lines 13-15). -/
def lerp (a b t : ℚ) : ℚ := a + (b - a) * t

/-- C8: `smoothstep t = t²(3−2t)`; on `[0,1]` it stays in `[0,1]`, fixes the
endpoints, is monotone non-decreasing, and `smoothstep(1/4) < 1/4`,
`smoothstep(3/4) > 3/4`. -/
theorem smoothstep_spec :
    (∀ t : ℚ, smoothstep t = t * t * (3 - 2 * t)) ∧
    (∀ t : ℚ, 0 ≤ t → t ≤ 1 → 0 ≤ smoothstep t ∧ smoothstep t ≤ 1) ∧
    smoothstep 0 = 0 ∧ smoothstep 1 = 1 ∧
    (∀ a b : ℚ, 0 ≤ a → a ≤ b → b ≤ 1 → smoothstep a ≤ smoothstep b) ∧
    smoothstep (1/4) < 1/4 ∧ smoothstep (3/4) > 3/4 := by
  refine ⟨fun t => rfl, ?_, by norm_num [smoothstep], by norm_num [smoothstep],
    ?_, by norm_num [smoothstep], by norm_num [smoothstep]⟩
  · intro t h0 h1
    constructor
    · unfold smoothstep
      nlinarith [sq_nonneg t]
    · unfold smoothstep
      nlinarith [sq_nonneg (1 - t), mul_nonneg (mul_nonneg h0 h0) h0]
  · intro a b h0 hab h1
    unfold smoothstep
    nlinarith [mul_nonneg h0 (sub_nonneg.mpr hab), mul_nonneg (sub_nonneg.mpr hab)
      (sub_nonneg.mpr h1), mul_nonneg (mul_nonneg h0 (sub_nonneg.mpr hab))
      (sub_nonneg.mpr h1)]

/-- Witness for C8 (the hypothesis-bearing conjuncts at concrete inputs). -/
theorem smoothstep_spec_witness :
    (0 ≤ smoothstep (1/3) ∧ smoothstep (1/3) ≤ 1) ∧
    smoothstep (1/3) ≤ smoothstep (1/2) :=
  ⟨smoothstep_spec.2.1 (1/3) (by norm_num) (by norm_num),
    smoothstep_spec.2.2.2.2.1 (1/3) (1/2) (by norm_num) (by norm_num) (by norm_num)⟩

/-! ## LED strip HSV input (`app/led.py`) -/

/-- `colorsys.hsv_to_rgb` (CPython standard library), as called by
`LedStrip.set_hsv`. The final `else` covers `i = 5`; colorsys's fall-through
past `i == 5` is unreachable because `i = i0 % 6 ∈ [0, 6)`. -/
def hsv_to_rgb (h s v : ℚ) : ℚ × ℚ × ℚ :=
  if s = 0 then (v, v, v)
  else
    let i0 : ℤ := pyInt (h * 6)
    let f : ℚ := h * 6 - (i0 : ℚ)
    let p := v * (1 - s)
    let q := v * (1 - s * f)
    let t := v * (1 - s * (1 - f))
    let i := i0 % 6
    if i = 0 then (v, t, p)
    else if i = 1 then (q, v, p)
    else if i = 2 then (p, v, t)
    else if i = 3 then (p, q, v)
    else if i = 4 then (t, p, v)
    else (v, p, q)

/-- `LedStrip.set_hsv` (led.py lines 77-83): normalise the hue with Python
`%` and division, clamp s and v, convert to RGB and delegate to `set_rgb`
with each channel scaled by 255 and truncated. The returned triple is the
argument tuple of the `set_rgb` call. -/
def set_hsv (h s v : ℚ) : ℤ × ℤ × ℤ :=
  let hn := pyMod h 360 / 360
  let rgb := hsv_to_rgb hn (clamp01 s) (clamp01 v)
  (pyInt (rgb.1 * 255), pyInt (rgb.2.1 * 255), pyInt (rgb.2.2 * 255))

theorem clamp01_mem (x : ℚ) : 0 ≤ clamp01 x ∧ clamp01 x ≤ 1 := by
  unfold clamp01
  exact ⟨le_max_left 0 _, max_le (by norm_num) (min_le_left 1 x)⟩

theorem pyInt_scale_mem {x : ℚ} (h0 : 0 ≤ x) (h1 : x ≤ 1) :
    0 ≤ pyInt (x * 255) ∧ pyInt (x * 255) ≤ 255 := by
  have hx0 : 0 ≤ x * 255 := by positivity
  rw [pyInt_nonneg_eq_floor hx0]
  refine ⟨Int.floor_nonneg.mpr hx0, ?_⟩
  have hle : x * 255 ≤ 255 := by nlinarith
  calc ⌊x * 255⌋ ≤ ⌊(255 : ℚ)⌋ := Int.floor_le_floor hle
    _ = 255 := by norm_num

theorem hsv_to_rgb_mem (h s v : ℚ) (hh : 0 ≤ h) (hs0 : 0 ≤ s) (hs1 : s ≤ 1)
    (hv0 : 0 ≤ v) (hv1 : v ≤ 1) :
    (0 ≤ (hsv_to_rgb h s v).1 ∧ (hsv_to_rgb h s v).1 ≤ 1) ∧
    (0 ≤ (hsv_to_rgb h s v).2.1 ∧ (hsv_to_rgb h s v).2.1 ≤ 1) ∧
    (0 ≤ (hsv_to_rgb h s v).2.2 ∧ (hsv_to_rgb h s v).2.2 ≤ 1) := by
  have key : ∀ x : ℚ, 0 ≤ x → x ≤ 1 → 0 ≤ v * (1 - s * x) ∧ v * (1 - s * x) ≤ 1 := by
    intro x hx0 hx1
    have h1 : s * x ≤ 1 := le_trans (mul_le_of_le_one_right hs0 hx1) hs1
    have h2 : 0 ≤ s * x := mul_nonneg hs0 hx0
    constructor
    · exact mul_nonneg hv0 (by linarith)
    · nlinarith
  have h6 : 0 ≤ h * 6 := by positivity
  have hf0 : 0 ≤ h * 6 - (pyInt (h * 6) : ℚ) := by
    rw [pyInt_nonneg_eq_floor h6]
    have := Int.floor_le (h * 6)
    linarith
  have hf1 : h * 6 - (pyInt (h * 6) : ℚ) ≤ 1 := by
    rw [pyInt_nonneg_eq_floor h6]
    have := Int.lt_floor_add_one (h * 6)
    push_cast at this ⊢
    linarith
  have hp := key 1 (by norm_num) (by norm_num)
  have hq := key (h * 6 - (pyInt (h * 6) : ℚ)) hf0 hf1
  have ht := key (1 - (h * 6 - (pyInt (h * 6) : ℚ))) (by linarith) (by linarith)
  rw [mul_one] at hp
  unfold hsv_to_rgb
  by_cases hs : s = 0
  · rw [if_pos hs]
    exact ⟨⟨hv0, hv1⟩, ⟨hv0, hv1⟩, hv0, hv1⟩
  · rw [if_neg hs]
    dsimp only
    split_ifs <;>
      exact ⟨⟨by first | exact hv0 | exact hp.1 | exact hq.1 | exact ht.1,
              by first | exact hv1 | exact hp.2 | exact hq.2 | exact ht.2⟩,
             ⟨by first | exact hv0 | exact hp.1 | exact hq.1 | exact ht.1,
              by first | exact hv1 | exact hp.2 | exact hq.2 | exact ht.2⟩,
             ⟨by first | exact hv0 | exact hp.1 | exact hq.1 | exact ht.1,
              by first | exact hv1 | exact hp.2 | exact hq.2 | exact ht.2⟩⟩

/-- C10: `set_hsv` accepts every rational input (it is total in the
embedding): the hue is reduced with Python `%` into `[0, 360)` and
normalised into `[0, 1)`, s and v are clamped into `[0, 1]`, and every RGB
channel handed to `set_rgb` lies in `[0, 255]`. -/
theorem set_hsv_safe : ∀ h s v : ℚ,
    (0 ≤ pyMod h 360 / 360 ∧ pyMod h 360 / 360 < 1) ∧
    (0 ≤ clamp01 s ∧ clamp01 s ≤ 1) ∧ (0 ≤ clamp01 v ∧ clamp01 v ≤ 1) ∧
    (0 ≤ (set_hsv h s v).1 ∧ (set_hsv h s v).1 ≤ 255) ∧
    (0 ≤ (set_hsv h s v).2.1 ∧ (set_hsv h s v).2.1 ≤ 255) ∧
    (0 ≤ (set_hsv h s v).2.2 ∧ (set_hsv h s v).2.2 ≤ 255) := by
  intro h s v
  have h360 : (0 : ℚ) < 360 := by norm_num
  have hn0 : 0 ≤ pyMod h 360 / 360 := div_nonneg (pyMod_nonneg h360 h) (by norm_num)
  have hn1 : pyMod h 360 / 360 < 1 := by
    rw [div_lt_one h360]
    exact pyMod_lt h360 h
  have hs := clamp01_mem s
  have hv := clamp01_mem v
  have hm := hsv_to_rgb_mem (pyMod h 360 / 360) (clamp01 s) (clamp01 v)
    hn0 hs.1 hs.2 hv.1 hv.2
  exact ⟨⟨hn0, hn1⟩, hs, hv,
    pyInt_scale_mem hm.1.1 hm.1.2,
    pyInt_scale_mem hm.2.1.1 hm.2.1.2,
    pyInt_scale_mem hm.2.2.1 hm.2.2.2⟩

/-! ## LED state updates (`app/state.py`) -/

section PyAttrs

variable {α : Type}

/-- Attribute lookup on a Python object modelled as an association list of
attribute names (`getattr` / first occurrence wins). -/
def getAttr : List (String × α) → String → Option α
  | [], _ => none
  | (k, v) :: rest, key => if k = key then some v else getAttr rest key

/-- `setattr` on an existing attribute: replace its stored value. -/
def setAttrVal (obj : List (String × α)) (key : String) (v : α) : List (String × α) :=
  obj.map (fun p => if p.1 = key then (key, v) else p)

/-- Python `hasattr`. -/
def pyHasattr (obj : List (String × α)) (k : String) : Bool := (getAttr obj k).isSome

/-- Python `key.startswith('_')` for a single-character prefix, written
directly on the character list so that it evaluates by kernel reduction. -/
def underscored (k : String) : Bool :=
  match k.data with
  | [] => false
  | c :: _ => c = '_'

/-- One iteration of the `for key, value in kwargs.items()` loop of
`LEDState.update` (state.py lines 68-70): set the attribute only when it
exists and does not start with an underscore. -/
def updStep (obj : List (String × α)) (kv : String × α) : List (String × α) :=
  if pyHasattr obj kv.1 && !(underscored kv.1) then setAttrVal obj kv.1 kv.2 else obj

/-- `LEDState.update(**kwargs)` (state.py lines 57-71): process the kwargs in
order, then unconditionally refresh `last_updated`. -/
def led_update (obj kwargs : List (String × α)) (now : α) : List (String × α) :=
  setAttrVal (kwargs.foldl updStep obj) "last_updated" now

/-- The value of the last occurrence of a key in a kwargs list. -/
def lastVal (kwargs : List (String × α)) (k : String) : Option α := getAttr kwargs.reverse k

theorem getAttr_cons (k0 : String) (v0 : α) (rest : List (String × α)) (key : String) :
    getAttr ((k0, v0) :: rest) key = if k0 = key then some v0 else getAttr rest key := rfl

theorem setAttrVal_cons (k0 : String) (v0 : α) (rest : List (String × α))
    (k : String) (v : α) :
    setAttrVal ((k0, v0) :: rest) k v =
      (if k0 = k then (k, v) else (k0, v0)) :: setAttrVal rest k v := rfl

theorem getAttr_setAttrVal_same (obj : List (String × α)) (k : String) (v : α) :
    getAttr (setAttrVal obj k v) k = if pyHasattr obj k then some v else none := by
  induction obj with
  | nil => rfl
  | cons p rest ih =>
      obtain ⟨k0, v0⟩ := p
      rw [setAttrVal_cons]
      by_cases hk : k0 = k
      · rw [if_pos hk, getAttr_cons, if_pos rfl]
        have hh : pyHasattr ((k0, v0) :: rest) k = true := by
          unfold pyHasattr
          rw [getAttr_cons, if_pos hk]
          rfl
        rw [hh]
        rfl
      · rw [if_neg hk, getAttr_cons, if_neg hk, ih]
        have hh : pyHasattr ((k0, v0) :: rest) k = pyHasattr rest k := by
          unfold pyHasattr
          rw [getAttr_cons, if_neg hk]
        rw [hh]

theorem getAttr_setAttrVal_ne (obj : List (String × α)) {k a : String} (h : a ≠ k) (v : α) :
    getAttr (setAttrVal obj k v) a = getAttr obj a := by
  induction obj with
  | nil => rfl
  | cons p rest ih =>
      obtain ⟨k0, v0⟩ := p
      rw [setAttrVal_cons]
      by_cases hk : k0 = k
      · rw [if_pos hk, getAttr_cons, getAttr_cons]
        rw [if_neg (fun hh : k = a => h hh.symm)]
        rw [if_neg (fun hh : k0 = a => h (hh ▸ hk))]
        exact ih
      · rw [if_neg hk, getAttr_cons, getAttr_cons]
        by_cases h0 : k0 = a
        · rw [if_pos h0, if_pos h0]
        · rw [if_neg h0, if_neg h0]
          exact ih

theorem pyHasattr_setAttrVal (obj : List (String × α)) (k : String) (v : α) (a : String) :
    pyHasattr (setAttrVal obj k v) a = pyHasattr obj a := by
  by_cases ha : a = k
  · subst ha
    unfold pyHasattr
    rw [getAttr_setAttrVal_same]
    by_cases hb : pyHasattr obj a <;> simp_all [pyHasattr]
  · unfold pyHasattr
    rw [getAttr_setAttrVal_ne obj ha]

theorem pyHasattr_updStep (obj : List (String × α)) (kv : String × α) (a : String) :
    pyHasattr (updStep obj kv) a = pyHasattr obj a := by
  unfold updStep
  split
  · exact pyHasattr_setAttrVal obj kv.1 kv.2 a
  · rfl

theorem getAttr_append (l1 l2 : List (String × α)) (k : String) :
    getAttr (l1 ++ l2) k =
      match getAttr l1 k with
      | some v => some v
      | none => getAttr l2 k := by
  induction l1 with
  | nil => rfl
  | cons p rest ih =>
      obtain ⟨k0, v0⟩ := p
      simp only [List.cons_append, getAttr]
      split
      · rfl
      · exact ih

theorem lastVal_cons (x : String × α) (l : List (String × α)) (k : String) :
    lastVal (x :: l) k =
      match lastVal l k with
      | some v => some v
      | none => if x.1 = k then some x.2 else none := by
  unfold lastVal
  rw [List.reverse_cons, getAttr_append]
  cases getAttr l.reverse k <;> rfl

theorem getAttr_eq_none (l : List (String × α)) (k : String)
    (h : ∀ kv ∈ l, kv.1 ≠ k) : getAttr l k = none := by
  induction l with
  | nil => rfl
  | cons p rest ih =>
      simp only [getAttr]
      rw [if_neg (h p (by simp))]
      exact ih (fun kv hkv => h kv (by simp [hkv]))

theorem getAttr_foldl (kwargs : List (String × α)) (obj : List (String × α)) (a : String) :
    getAttr (kwargs.foldl updStep obj) a =
      match lastVal (kwargs.filter
          (fun kv => pyHasattr obj kv.1 && !(underscored kv.1))) a with
      | some v => some v
      | none => getAttr obj a := by
  induction kwargs generalizing obj with
  | nil => rfl
  | cons kv rest ih =>
      rw [List.foldl_cons]
      have hfil : rest.filter
            (fun x => pyHasattr (updStep obj kv) x.1 && !(underscored x.1)) =
          rest.filter (fun x => pyHasattr obj x.1 && !(underscored x.1)) := by
        apply List.filter_congr
        intro x _
        rw [pyHasattr_updStep]
      have hstep := ih (updStep obj kv)
      rw [hfil] at hstep
      by_cases hvalid : (pyHasattr obj kv.1 && !(underscored kv.1)) = true
      · have hconsfil : (kv :: rest).filter
              (fun x => pyHasattr obj x.1 && !(underscored x.1)) =
            kv :: rest.filter (fun x => pyHasattr obj x.1 && !(underscored x.1)) :=
          List.filter_cons_of_pos hvalid
        rw [hconsfil, lastVal_cons]
        rw [hstep]
        cases hlv : lastVal (rest.filter
            (fun x => pyHasattr obj x.1 && !(underscored x.1))) a with
        | some v => rfl
        | none =>
            have hupd : updStep obj kv = setAttrVal obj kv.1 kv.2 := by
              unfold updStep
              rw [if_pos hvalid]
            rw [hupd]
            by_cases ha : a = kv.1
            · have hhas : pyHasattr obj kv.1 = true := by
                have hv2 := hvalid
                simp only [Bool.and_eq_true] at hv2
                exact hv2.1
              rw [ha, getAttr_setAttrVal_same, hhas, if_pos rfl, if_pos rfl]
            · rw [getAttr_setAttrVal_ne obj ha]
              rw [if_neg (fun hh : kv.1 = a => ha hh.symm)]
      · have hconsfil : (kv :: rest).filter
              (fun x => pyHasattr obj x.1 && !(underscored x.1)) =
            rest.filter (fun x => pyHasattr obj x.1 && !(underscored x.1)) :=
          List.filter_cons_of_neg hvalid
        rw [hconsfil]
        have hupd : updStep obj kv = obj := by
          unfold updStep
          rw [if_neg hvalid]
        rw [hupd] at hstep ⊢
        exact hstep

/-- C9: `LEDState.update(**kwargs)` (i) always refreshes `last_updated`, even
when no key matched; (ii) gives every updatable attribute (existing, not
underscore-prefixed, other than `last_updated`) the value of its last kwargs
occurrence, leaving it unchanged when kwargs does not mention it; in
particular (iii) unknown names and underscore-prefixed names are silently
ignored (they are filtered out, no error is possible — the model is total). -/
theorem pyHasattr_foldl (kwargs : List (String × α)) (obj : List (String × α))
    (a : String) :
    pyHasattr (kwargs.foldl updStep obj) a = pyHasattr obj a := by
  induction kwargs generalizing obj with
  | nil => rfl
  | cons kv rest ih =>
      rw [List.foldl_cons, ih (updStep obj kv), pyHasattr_updStep]

theorem led_update_spec (obj kwargs : List (String × α)) (now : α)
    (hlu : pyHasattr obj "last_updated" = true) :
    (getAttr (led_update obj kwargs now) "last_updated" = some now) ∧
    (∀ a, a ≠ "last_updated" →
      getAttr (led_update obj kwargs now) a =
        match lastVal (kwargs.filter
            (fun kv => pyHasattr obj kv.1 && !(underscored kv.1))) a with
        | some v => some v
        | none => getAttr obj a) ∧
    (∀ a, a ≠ "last_updated" →
      (pyHasattr obj a = false ∨ underscored a = true) →
      getAttr (led_update obj kwargs now) a = getAttr obj a) := by
  refine ⟨?_, ?_, ?_⟩
  · unfold led_update
    rw [getAttr_setAttrVal_same]
    rw [pyHasattr_foldl kwargs obj "last_updated", hlu]
    rfl
  · intro a ha
    unfold led_update
    rw [getAttr_setAttrVal_ne _ ha, getAttr_foldl]
  · intro a ha hinvalid
    unfold led_update
    rw [getAttr_setAttrVal_ne _ ha, getAttr_foldl]
    have hnone : lastVal (kwargs.filter
        (fun kv => pyHasattr obj kv.1 && !(underscored kv.1))) a = none := by
      unfold lastVal
      apply getAttr_eq_none
      intro kv hkv heq
      rw [List.mem_reverse] at hkv
      have hmem := List.of_mem_filter hkv
      rw [heq] at hmem
      rcases hinvalid with hno | hund
      · rw [hno] at hmem
        simp at hmem
      · rw [hund] at hmem
        simp at hmem
    rw [hnone]

end PyAttrs

/-- Witness for C9 at a concrete object and kwargs list. -/
theorem led_update_spec_witness :
    (getAttr (led_update
        [("mode", 0), ("rgb", 1), ("brightness", 2), ("_lock", 3),
         ("last_updated", 4), ("update", 5)]
        [("mode", 10), ("nosuch", 11), ("_lock", 12)] 99) "last_updated" = some 99) ∧
    (getAttr (led_update
        [("mode", 0), ("rgb", 1), ("brightness", 2), ("_lock", 3),
         ("last_updated", 4), ("update", 5)]
        [("mode", 10), ("nosuch", 11), ("_lock", 12)] 99) "mode" = some 10) ∧
    (getAttr (led_update
        [("mode", 0), ("rgb", 1), ("brightness", 2), ("_lock", 3),
         ("last_updated", 4), ("update", 5)]
        [("mode", 10), ("nosuch", 11), ("_lock", 12)] 99) "_lock" = some 3) := by
  have h := led_update_spec
    [("mode", 0), ("rgb", 1), ("brightness", 2), ("_lock", 3),
     ("last_updated", 4), ("update", 5)]
    [("mode", 10), ("nosuch", 11), ("_lock", 12)] 99 (by decide)
  refine ⟨h.1, ?_, ?_⟩
  · exact (h.2.1 "mode" (by decide)).trans (by rfl)
  · exact (h.2.2 "_lock" (by decide) (Or.inr (by decide))).trans (by rfl)

/-! ## Water level monitor (`app/water_level.py`) -/

/-- `WaterLevel` enumeration (water_level.py lines 27-31). -/
inductive WaterLevel
  | OK
  | LOW
deriving DecidableEq, Repr

/-- The polarity mapping of `_update_level` (water_level.py lines 114-118). -/
def levelOf (active_high gpio : Bool) : WaterLevel :=
  if active_high then (if gpio then WaterLevel.LOW else WaterLevel.OK)
  else (if gpio then WaterLevel.OK else WaterLevel.LOW)

/-- Sensor configuration: polarity and debounce window. -/
structure WLCfg where
  active_high : Bool
  debounce_time : ℚ
deriving DecidableEq, Repr

/-- Loop state of `_monitor_loop`: the candidate raw reading
(`stable_gpio_state`), the time it became the candidate (`stable_since`),
and the accepted `current_level`. -/
structure WLState where
  stable_gpio : Bool
  stable_since : ℚ
  level : WaterLevel
deriving DecidableEq, Repr

/-- One iteration of `_monitor_loop` (water_level.py lines 167-184) at time
`t` with raw reading `g`, inlining `_update_level` (lines 105-153): a raw
change restarts the debounce window; a reading stable for
`≥ debounce_time` recomputes the level, and only a differing level updates
state and fires the callback (the returned event). -/
def wl_step (cfg : WLCfg) (s : WLState) (t : ℚ) (g : Bool) : WLState × Option WaterLevel :=
  if g ≠ s.stable_gpio then ({ s with stable_gpio := g, stable_since := t }, none)
  else if t - s.stable_since ≥ cfg.debounce_time then
    let nl := levelOf cfg.active_high g
    if nl ≠ s.level then ({ s with stable_since := t, level := nl }, some nl)
    else ({ s with stable_since := t }, none)
  else (s, none)

/-- Run the monitor loop over a trace of timed raw readings, collecting the
callback events in order. -/
def wl_run (cfg : WLCfg) : WLState → List (ℚ × Bool) → WLState × List WaterLevel
  | s, [] => (s, [])
  | s, (t, g) :: rest =>
      let step := wl_step cfg s t g
      let next := wl_run cfg step.1 rest
      (next.1, step.2.toList ++ next.2)

/-- "No raw value ever stays unchanged for at least `debounce`": measured,
as the loop does, from the tick at which the current value last changed
(the anchor `t0` with value `g0`). -/
def noStable (debounce : ℚ) : ℚ → Bool → List (ℚ × Bool) → Bool
  | _, _, [] => true
  | t0, g0, (t, g) :: rest =>
      if g = g0 then decide (t - t0 < debounce) && noStable debounce t0 g0 rest
      else noStable debounce t g rest

theorem wl_run_cons (cfg : WLCfg) (s : WLState) (t : ℚ) (g : Bool)
    (rest : List (ℚ × Bool)) :
    wl_run cfg s ((t, g) :: rest) =
      ((wl_run cfg (wl_step cfg s t g).1 rest).1,
        (wl_step cfg s t g).2.toList ++ (wl_run cfg (wl_step cfg s t g).1 rest).2) := rfl

/-- C7: (i) if no raw value ever stays unchanged for at least
`debounce_time`, the level is never updated and the change callback never
fires over the whole trace; (ii) a callback fires at a step exactly when the
reading equals the debounce candidate, the candidate has been stable for
`≥ debounce_time`, and the recomputed level differs from the current one —
and then the new level is the fired one. -/
theorem water_level_debounce (active_high : Bool) (debounce : ℚ) :
    (∀ (trace : List (ℚ × Bool)) (t0 : ℚ) (g0 : Bool) (l0 : WaterLevel),
      noStable debounce t0 g0 trace = true →
      (wl_run ⟨active_high, debounce⟩ ⟨g0, t0, l0⟩ trace).2 = [] ∧
      (wl_run ⟨active_high, debounce⟩ ⟨g0, t0, l0⟩ trace).1.level = l0) ∧
    (∀ (s : WLState) (t : ℚ) (g : Bool) (nl : WaterLevel),
      (wl_step ⟨active_high, debounce⟩ s t g).2 = some nl →
      g = s.stable_gpio ∧ t - s.stable_since ≥ debounce ∧
      nl = levelOf active_high g ∧ nl ≠ s.level ∧
      (wl_step ⟨active_high, debounce⟩ s t g).1.level = nl) := by
  constructor
  · intro trace
    induction trace with
    | nil =>
        intro t0 g0 l0 _
        exact ⟨rfl, rfl⟩
    | cons p rest ih =>
        obtain ⟨t, g⟩ := p
        intro t0 g0 l0 hns
        unfold noStable at hns
        by_cases hg : g = g0
        · rw [if_pos hg, Bool.and_eq_true] at hns
          have hlt : t - t0 < debounce := of_decide_eq_true hns.1
          have hstep : wl_step ⟨active_high, debounce⟩ ⟨g0, t0, l0⟩ t g =
              (⟨g0, t0, l0⟩, none) := by
            unfold wl_step
            rw [if_neg (by simp [hg]), if_neg (by simp only [ge_iff_le, not_le]; linarith)]
          rw [wl_run_cons, hstep]
          simpa using ih t0 g0 l0 hns.2
        · rw [if_neg hg] at hns
          have hstep : wl_step ⟨active_high, debounce⟩ ⟨g0, t0, l0⟩ t g =
              (⟨g, t, l0⟩, none) := by
            unfold wl_step
            rw [if_pos (by simp [hg])]
          rw [wl_run_cons, hstep]
          simpa using ih t g l0 hns
  · intro s t g nl hev
    unfold wl_step at hev
    by_cases h1 : g ≠ s.stable_gpio
    · rw [if_pos h1] at hev
      cases hev
    · rw [if_neg h1] at hev
      push_neg at h1
      by_cases h2 : t - s.stable_since ≥ debounce
      · rw [if_pos h2] at hev
        by_cases h3 : levelOf active_high g ≠ s.level
        · rw [if_pos h3] at hev
          have hnl : nl = levelOf active_high g := (Option.some.injEq _ _ ▸ hev).symm
          refine ⟨h1, h2, hnl, hnl ▸ h3, ?_⟩
          unfold wl_step
          rw [if_neg (by simp [h1]), if_pos h2, if_pos h3]
          exact hnl.symm
        · rw [if_neg h3] at hev
          cases hev
      · rw [if_neg h2] at hev
        cases hev

/-- Witness for C7 at a concrete trace (part i) and a concrete firing step
(part ii). -/
theorem water_level_debounce_witness :
    ((wl_run ⟨true, 5⟩ ⟨false, 0, WaterLevel.OK⟩ [(1, true), (2, false)]).2 = [] ∧
      (wl_run ⟨true, 5⟩ ⟨false, 0, WaterLevel.OK⟩ [(1, true), (2, false)]).1.level =
        WaterLevel.OK) ∧
    (true = (⟨true, 0, WaterLevel.OK⟩ : WLState).stable_gpio ∧
      (5 : ℚ) - (⟨true, 0, WaterLevel.OK⟩ : WLState).stable_since ≥ 5 ∧
      WaterLevel.LOW = levelOf true true ∧
      WaterLevel.LOW ≠ (⟨true, 0, WaterLevel.OK⟩ : WLState).level ∧
      (wl_step ⟨true, 5⟩ ⟨true, 0, WaterLevel.OK⟩ 5 true).1.level = WaterLevel.LOW) :=
  ⟨(water_level_debounce true 5).1 [(1, true), (2, false)] 0 false WaterLevel.OK (by rfl),
    (water_level_debounce true 5).2 ⟨true, 0, WaterLevel.OK⟩ 5 true WaterLevel.LOW
      (by
        norm_num [wl_step, levelOf]
        simp)⟩
